import Mathlib

/-!  Verification of the CareerSpark resume-analysis pipeline.

Shallow embedding of `utils/scoring.py`, `utils/nlp_analyzer.py`,
`utils/grammar_checker.py` and `utils/resume_generator.py`.

Modelling conventions:
* Python floats are modelled as rationals (`ℚ`); `round(x, 1)` is modelled as
  exact round-half-to-even at one decimal digit.
* Python dicts with a fixed key set are modelled as structures; `dict.get`
  with a default is modelled as an `Option` field (`none` = key absent or
  value falsy, as noted per field).
* Python sets of strings are modelled as `Finset String`; `list(s)` for a set
  `s` (iteration order unspecified in Python) is modelled as `s.sort (· ≤ ·)`.
* Strings are Lean `String`s; Python `len`, indexing and slicing of `str`
  count characters, matching `String.length` / list-of-char operations.
-/

namespace CareerSpark

/-- Python `max(0, min(100, x))` from `calculate_resume_score`. -/
def pyClamp (x : ℚ) : ℚ := max 0 (min 100 x)

/-- Round half to even to the nearest integer (semantics of Python `round`
on an exactly-representable value). -/
def rTies (x : ℚ) : ℤ :=
  let n := ⌊x⌋
  let f := x - n
  if f < 1 / 2 then n
  else if 1 / 2 < f then n + 1
  else if n % 2 = 0 then n else n + 1

/-- Python `round(x, 1)`: one decimal digit, ties to even. -/
def round1 (x : ℚ) : ℚ := (rTies (10 * x) : ℚ) / 10

/-- Whether `needle` occurs as a contiguous run inside the list (Python `in` on `str`). -/
def listHasInfix (needle : List Char) : List Char → Bool
  | [] => needle.isEmpty
  | c :: cs => needle.isPrefixOf (c :: cs) || listHasInfix needle cs

/-- Python substring test `needle in hay`. -/
def strContains (hay needle : String) : Bool :=
  listHasInfix needle.toList hay.toList

/-- Python `s.lower()` (ASCII case mapping). -/
def pyLower (s : String) : String := ⟨s.data.map Char.toLower⟩

/-- Python `s.upper()` (ASCII case mapping). -/
def pyUpper (s : String) : String := ⟨s.data.map Char.toUpper⟩

/-- Python `s.strip()`: drop leading and trailing whitespace. -/
def pyStrip (s : String) : String :=
  ⟨((s.data.dropWhile Char.isWhitespace).reverse.dropWhile Char.isWhitespace).reverse⟩

/-- Python `s.startswith(pre)`. -/
def pyStartsWith (s pre : String) : Bool := pre.data.isPrefixOf s.data

/-- Python `s.endswith(suf)`. -/
def pyEndsWith (s suf : String) : Bool := suf.data.reverse.isPrefixOf s.data.reverse

/-- Split at every occurrence of `sep` (fuel-driven structural recursion;
`fuel` at least the list length makes it total). -/
def splitOnFuel (sep : List Char) : ℕ → List Char → List Char → List (List Char)
  | 0, acc, _ => [acc.reverse]
  | _ + 1, acc, [] => [acc.reverse]
  | n + 1, acc, c :: cs =>
    if sep.isPrefixOf (c :: cs) then
      acc.reverse :: splitOnFuel sep n [] ((c :: cs).drop sep.length)
    else splitOnFuel sep n (c :: acc) cs

/-- Python `s.split(sep)` for non-empty `sep`: splits on every occurrence,
keeping empty pieces. -/
def pySplitOn (s sep : String) : List String :=
  (splitOnFuel sep.data (s.data.length + 1) [] s.data).map fun l => ⟨l⟩

/-- Split at every character satisfying `p`, keeping empty pieces. -/
def splitPredAux (p : Char → Bool) (acc : List Char) : List Char → List (List Char)
  | [] => [acc.reverse]
  | c :: cs =>
    if p c then acc.reverse :: splitPredAux p [] cs
    else splitPredAux p (c :: acc) cs

/-- Python `s.split()`: split on whitespace runs, dropping empty pieces. -/
def pySplitWs (s : String) : List String :=
  ((splitPredAux Char.isWhitespace [] s.data).map fun l => (⟨l⟩ : String)).filter (· ≠ "")

/-- Left-to-right, non-overlapping replacement (fuel-driven; `fuel` at least
the list length makes it total for non-empty `old`). -/
def replaceFuel (old new : List Char) : ℕ → List Char → List Char
  | 0, l => l
  | _ + 1, [] => []
  | n + 1, c :: cs =>
    if old.isPrefixOf (c :: cs) && !old.isEmpty then
      new ++ replaceFuel old new n ((c :: cs).drop old.length)
    else c :: replaceFuel old new n cs

/-- Python `s.replace(old, new)` (all occurrences, left to right). -/
def pyReplace (s old new : String) : String :=
  ⟨replaceFuel old.data new.data s.data.length s.data⟩

/-- Python `s.rstrip(cs)`: drop trailing characters belonging to `cs`. -/
def rstripChars (s : String) (cs : List Char) : String :=
  ⟨(s.toList.reverse.dropWhile (cs.contains ·)).reverse⟩

/-- Python `s.lstrip(cs)`: drop leading characters belonging to `cs`. -/
def lstripChars (s : String) (cs : List Char) : String :=
  ⟨s.toList.dropWhile (cs.contains ·)⟩

/-- Replace `length` characters of `s` at `offset` by `repl`
(Python `s[:offset] + repl + s[offset+length:]`). -/
def spliceReplace (s : String) (offset length : ℕ) (repl : String) : String :=
  ⟨s.toList.take offset ++ repl.toList ++ s.toList.drop (offset + length)⟩

/-- Python `s[0].upper() + s[1:]` (total: empty string maps to itself). -/
def capitalizeFirst (s : String) : String :=
  match s.toList with
  | [] => ""
  | c :: cs => ⟨c.toUpper :: cs⟩

/-! ## Data model -/

/-- The `skills_match` dict built by `nlp_analyzer.calculate_skills_match`. -/
structure SkillsMatch where
  percentage : ℚ
  matched_skills : List String
  missing_skills : List String
deriving Repr, DecidableEq

/-- The analysis dict built by `nlp_analyzer.analyze_resume_vs_job`, restricted
to the keys the scoring and optimization code reads.  `skills_match = none`
models a missing key or an empty dict (the Python code tests `if not
skills_match`). -/
structure Analysis where
  keyword_overlap : ℚ
  skills_match : Option SkillsMatch
  semantic_similarity : ℚ
  missing_keywords : List String
  resume_keywords : List String
  job_keywords : List String
  resume_skills : List String
  job_skills : List String
  suggestions : List String
deriving Repr, DecidableEq

/-- One grammar issue dict as built in `grammar_checker.check_grammar`. -/
structure GrammarIssue where
  message : String
  context : String
  offset : ℕ
  length : ℕ
  replacements : List String
  rule_id : String
  category : String
deriving Repr, DecidableEq

/-- Return value of `grammar_checker.check_grammar`. -/
structure GrammarReport where
  issues : List GrammarIssue
  issue_count : ℕ
  suggestions : List String
  score : ℚ
deriving Repr, DecidableEq

/-! ## `utils/nlp_analyzer.py` -/

/-- Embedding of `nlp_analyzer.calculate_keyword_overlap`. -/
def calculate_keyword_overlap (resume_keywords job_keywords : Finset String) : ℚ :=
  if job_keywords = ∅ then 0
  else ((resume_keywords ∩ job_keywords).card : ℚ) / (job_keywords.card : ℚ) * 100

/-- Embedding of `nlp_analyzer.calculate_skills_match`.  The Python `list(...)` of a set is
modelled as the ≤-sorted listing (set iteration order is unspecified). -/
def calculate_skills_match (resume_skills job_skills : Finset String) : SkillsMatch :=
  if job_skills = ∅ then ⟨0, [], []⟩
  else
    { percentage := ((resume_skills ∩ job_skills).card : ℚ) / (job_skills.card : ℚ) * 100
      matched_skills := (resume_skills ∩ job_skills).sort (· ≤ ·)
      missing_skills := (job_skills \ resume_skills).sort (· ≤ ·) }

/-- Order used by `find_missing_keywords`: Python sort key
`(-len(x), x)` — longer strings first, ties alphabetical. -/
def kwOrder (a b : String) : Prop :=
  b.length < a.length ∨ (a.length = b.length ∧ a ≤ b)

instance : DecidableRel kwOrder := fun a b => by
  unfold kwOrder; infer_instance

instance : IsTrans String kwOrder := by
  constructor
  intro a b c hab hbc
  rcases hab with h1 | ⟨e1, l1⟩ <;> rcases hbc with h2 | ⟨e2, l2⟩
  · exact Or.inl (lt_trans h2 h1)
  · exact Or.inl (e2 ▸ h1)
  · exact Or.inl (e1 ▸ h2)
  · exact Or.inr ⟨e1.trans e2, le_trans l1 l2⟩

instance : IsAntisymm String kwOrder := by
  constructor
  intro a b hab hba
  rcases hab with h1 | ⟨e1, l1⟩ <;> rcases hba with h2 | ⟨e2, l2⟩
  · exact absurd h1 (not_lt_of_gt h2)
  · exact absurd h1 (e2 ▸ lt_irrefl _)
  · exact absurd h2 (e1 ▸ lt_irrefl _)
  · exact le_antisymm l1 l2

instance : IsTotal String kwOrder := by
  constructor
  intro a b
  rcases lt_trichotomy a.length b.length with h | h | h
  · exact Or.inr (Or.inl h)
  · rcases le_total a b with hle | hle
    · exact Or.inl (Or.inr ⟨h, hle⟩)
    · exact Or.inr (Or.inr ⟨h.symm, hle⟩)
  · exact Or.inl (Or.inl h)

/-- Embedding of `nlp_analyzer.find_missing_keywords`: job keywords absent from the resume,
sorted longest-first then alphabetically, first 20. -/
def find_missing_keywords (resume_keywords job_keywords : Finset String) : List String :=
  ((job_keywords \ resume_keywords).sort kwOrder).take 20

/-! ## `utils/scoring.py` -/

/-- Embedding of `scoring.calculate_keyword_score`. -/
def calculate_keyword_score (analysis : Analysis) : ℚ :=
  let keyword_overlap := analysis.keyword_overlap
  if keyword_overlap ≥ 80 then 100
  else if keyword_overlap ≥ 60 then 85
  else if keyword_overlap ≥ 40 then 70
  else if keyword_overlap ≥ 25 then 55
  else if keyword_overlap ≥ 10 then 40
  else 20

/-- Embedding of `scoring.calculate_skills_score`.  `analysis.get('skills_match', {})` with a
falsy (missing/empty) value is the `none` case. -/
def calculate_skills_score (analysis : Analysis) : ℚ :=
  match analysis.skills_match with
  | none => 50
  | some skills_match =>
    let p := skills_match.percentage
    if p ≥ 90 then 100
    else if p ≥ 75 then 90
    else if p ≥ 60 then 80
    else if p ≥ 45 then 70
    else if p ≥ 30 then 60
    else if p ≥ 15 then 45
    else 30

/-- Embedding of `scoring.calculate_completeness_score`: four boolean factors, score is the
fraction satisfied times 100. -/
def calculate_completeness_score (analysis : Analysis) : ℚ :=
  let resume_keywords := analysis.resume_keywords
  let resume_skills := analysis.resume_skills
  let completeness_factors : List Bool :=
    [decide (resume_keywords.length ≥ 10),
     decide (resume_skills.length ≥ 3),
     decide (resume_keywords.dedup.length ≥ 8),
     decide (resume_keywords.length ≥ 15)]
  ((completeness_factors.count true : ℚ) / (completeness_factors.length : ℚ)) * 100

/-- Embedding of `scoring.get_score_category_and_recommendations`. -/
def get_score_category_and_recommendations (score : ℚ) : String × List String :=
  if score ≥ 85 then
    ("Excellent",
     ["Your resume is very well-matched to this position!",
      "Consider minor formatting improvements for perfection",
      "You're ready to apply with confidence"])
  else if score ≥ 70 then
    ("Good",
     ["Your resume is well-suited for this position",
      "Add a few more relevant keywords to improve matching",
      "Consider reviewing and enhancing key achievements"])
  else if score ≥ 55 then
    ("Fair",
     ["Your resume shows potential but needs improvement",
      "Focus on adding missing keywords and skills",
      "Enhance your experience descriptions with specific achievements"])
  else if score ≥ 40 then
    ("Needs Improvement",
     ["Significant improvements needed to match this position",
      "Add relevant keywords and skills from the job description",
      "Consider restructuring content to better align with requirements"])
  else
    ("Poor Match",
     ["Major revisions needed to match this job",
      "Consider if this position aligns with your experience",
      "Focus on highlighting transferable skills and relevant experience"])

/-- One entry of `improvement_potential` (`scoring.calculate_improvement_potential`). -/
structure Improvement where
  area : String
  current_score : ℚ
  potential_gain : ℚ
  priority : String
  actions : List String
deriving Repr, DecidableEq

/-- The `priority_order` dict in `scoring.calculate_improvement_potential`. -/
def priorityRank (p : String) : ℕ :=
  if p = "High" then 3 else if p = "Medium" then 2 else 1

/-- Body of the per-area `if/elif` chain in `calculate_improvement_potential`:
the improvement entry appended for a given breakdown area scoring below 70. -/
def improvementFor (area : String) (score : ℚ) : Option Improvement :=
  let potential_gain := min 25 (90 - score)
  if area = "keyword_match" then
    some ⟨"Keyword Optimization", score, potential_gain,
          if score < 50 then "High" else "Medium",
          ["Add missing keywords from job description",
           "Use industry-specific terminology",
           "Include relevant technical terms"]⟩
  else if area = "skills_match" then
    some ⟨"Skills Alignment", score, potential_gain,
          if score < 60 then "High" else "Medium",
          ["Highlight relevant technical skills",
           "Add missing required skills",
           "Organize skills by relevance"]⟩
  else if area = "semantic_similarity" then
    some ⟨"Content Relevance", score, potential_gain, "Medium",
          ["Rewrite experience using job description language",
           "Focus on relevant achievements",
           "Align content with job requirements"]⟩
  else if area = "grammar" then
    some ⟨"Writing Quality", score, potential_gain,
          if score > 60 then "Medium" else "High",
          ["Fix grammar and spelling errors",
           "Improve sentence structure",
           "Use professional language"]⟩
  else if area = "completeness" then
    some ⟨"Resume Completeness", score, potential_gain, "Low",
          ["Add more relevant experience details",
           "Include additional skills",
           "Expand achievement descriptions"]⟩
  else none

/-- Embedding of `scoring.calculate_improvement_potential`.  Python's stable `sorted`/`sort`
are modelled with the stable `List.insertionSort`; `reverse=True` keeps the
original relative order of equal keys, as does sorting with the reflexive
"key not below" comparison used here. -/
def calculate_improvement_potential (_overall_score : ℚ) (breakdown : List (String × ℚ)) :
    List Improvement :=
  let sorted_areas := breakdown.insertionSort (fun a b => a.2 ≤ b.2)
  let improvements := sorted_areas.foldl
    (fun acc ab =>
      if ab.2 < 70 then
        match improvementFor ab.1 ab.2 with
        | some imp => acc ++ [imp]
        | none => acc
      else acc) []
  let sorted := improvements.insertionSort (fun a b =>
    priorityRank b.priority < priorityRank a.priority ∨
      (priorityRank a.priority = priorityRank b.priority ∧
        b.potential_gain ≤ a.potential_gain))
  sorted.take 3

/-- The `weights` dict of `scoring.calculate_resume_score`. -/
structure Weights where
  keyword_match : ℚ
  skills_match : ℚ
  semantic_similarity : ℚ
  grammar : ℚ
  completeness : ℚ
deriving Repr, DecidableEq

/-- The `breakdown` dict of the score report (values rounded to one decimal). -/
structure Breakdown where
  keyword_match : ℚ
  skills_match : ℚ
  semantic_similarity : ℚ
  grammar : ℚ
  completeness : ℚ
deriving Repr, DecidableEq

/-- Return value of `scoring.calculate_resume_score`. -/
structure ScoreReport where
  overall_score : ℚ
  category : String
  breakdown : Breakdown
  weights : Weights
  recommendations : List String
  improvement_potential : List Improvement
deriving Repr, DecidableEq

/-- The fixed weight table of `scoring.calculate_resume_score`. -/
def scoreWeights : Weights := ⟨0.35, 0.25, 0.20, 0.15, 0.05⟩

/-- Embedding of `scoring.calculate_resume_score`.  `grammar_results.get('score', 95.0)` is
modelled as the `score` field: `check_grammar` always supplies it. -/
def calculate_resume_score (analysis : Analysis) (grammar_results : GrammarReport) :
    ScoreReport :=
  let keyword_score := calculate_keyword_score analysis
  let skills_score := calculate_skills_score analysis
  let semantic_score := analysis.semantic_similarity
  let grammar_score := grammar_results.score
  let completeness_score := calculate_completeness_score analysis
  let overall_raw :=
    keyword_score * scoreWeights.keyword_match +
    skills_score * scoreWeights.skills_match +
    semantic_score * scoreWeights.semantic_similarity +
    grammar_score * scoreWeights.grammar +
    completeness_score * scoreWeights.completeness
  let overall_score := pyClamp overall_raw
  let cr := get_score_category_and_recommendations overall_score
  { overall_score := round1 overall_score
    category := cr.1
    breakdown := ⟨round1 keyword_score, round1 skills_score, round1 semantic_score,
                  round1 grammar_score, round1 completeness_score⟩
    weights := scoreWeights
    recommendations := cr.2
    improvement_potential := calculate_improvement_potential overall_score
      [("keyword_match", keyword_score), ("skills_match", skills_score),
       ("semantic_similarity", semantic_score), ("grammar", grammar_score),
       ("completeness", completeness_score)] }

/-! ## `utils/grammar_checker.py` -/

/-- One raw LanguageTool match, as read by `check_grammar` (`match.message`,
`match.context`, `match.offset`, `match.errorLength`, `match.replacements`,
`match.ruleId`, `match.category`, `match.contextOffset`; the `getattr`
fallback chains in the source handle library versions where attribute names
differ and are modelled as plain field reads). -/
structure LTMatch where
  message : String
  context : String
  offset : ℕ
  errorLength : ℕ
  replacements : List String
  ruleId : String
  category : String
  contextOffset : ℕ
deriving Repr, DecidableEq

/-- Outcome of talking to the external LanguageTool collaborator:
`get_language_tool()` returned `None`, `tool.check` raised, or it returned a
list of matches. -/
inductive ToolOutcome where
  | unavailable : ToolOutcome
  | errored : ToolOutcome
  | ok : List LTMatch → ToolOutcome
deriving Repr, DecidableEq

/-- The issue dict built from one match in `check_grammar`. -/
def issueOfMatch (m : LTMatch) : GrammarIssue :=
  ⟨m.message, m.context, m.offset, m.errorLength, m.replacements.take 3,
   m.ruleId, m.category⟩

/-- The per-match suggestion string built in `check_grammar` when the match
has replacements (Python slicing clamps, so the `except` fallback there is
unreachable). -/
def suggestionOfMatch (m : LTMatch) : String :=
  if m.context ≠ "" then
    let original_text :=
      if m.contextOffset + m.errorLength ≤ m.context.length then
        (⟨(m.context.toList.drop m.contextOffset).take m.errorLength⟩ : String)
      else (⟨m.context.toList.drop m.contextOffset⟩ : String)
    "Consider changing '" ++ original_text ++ "' to '" ++
      m.replacements.headD "" ++ "'"
  else
    "Consider using '" ++ m.replacements.headD "" ++ "' instead"

/-- Embedding of `grammar_checker.check_grammar`, with the external collaborator's outcome
made explicit. -/
def check_grammar (text : String) (outcome : ToolOutcome) : GrammarReport :=
  if text = "" || pyStrip text = "" then ⟨[], 0, [], 100⟩
  else
    match outcome with
    | .unavailable =>
        ⟨[], 0, ["Grammar checking service is currently unavailable"], 95⟩
    | .errored =>
        ⟨[], 0, ["Grammar checking encountered an error"], 90⟩
    | .ok ms =>
        let issues := ms.map issueOfMatch
        let suggestions := ms.foldl
          (fun acc m => if m.replacements ≠ [] then acc ++ [suggestionOfMatch m] else acc) []
        let word_count := (pySplitWs text).length
        let score : ℚ :=
          if word_count = 0 then 100
          else max 0 (100 - ((issues.length : ℚ) / (word_count : ℚ)) * 1000)
        let suggestions :=
          if issues.length > 5 then
            suggestions ++ ["Consider reviewing your text for grammar and style improvements"]
          else if issues.length > 0 then
            suggestions ++ ["Minor grammar improvements detected"]
          else
            suggestions ++ ["Good grammar and writing style!"]
        ⟨issues, issues.length, suggestions, score⟩

/-! ## Grammar corrections in `utils/resume_generator.py` -/

/-- The edit loop inside `resume_generator.correct_text_grammar`: issues are
applied one by one **in the order they appear in the report**, each splicing
its first replacement at its original offset when `offset + length` still fits
the current text. -/
def applyGrammarIssues (text : String) (issues : List GrammarIssue) : String :=
  issues.foldl
    (fun corrected_text issue =>
      if issue.replacements ≠ [] then
        let replacement := issue.replacements.headD ""
        if issue.offset + issue.length ≤ corrected_text.length then
          spliceReplace corrected_text issue.offset issue.length replacement
        else corrected_text
      else corrected_text)
    text

/-- Embedding of `resume_generator.correct_text_grammar`, with the grammar collaborator
abstracted as a total function `checker` (the source's `except` path only
guards collaborator failures, which `check_grammar` already catches). -/
def correct_text_grammar (checker : String → GrammarReport) (text : String) : String :=
  if text = "" || decide ((pyStrip text).length < 3) then text
  else
    let grammar_result := checker text
    if grammar_result.issues ≠ [] then applyGrammarIssues text grammar_result.issues
    else text

/-- Modelled from the spec (§4.5 grammar pass): the same edit loop but with
the issues first sorted in descending-offset order, as the spec requires;
the stable sort with "offset not below" mirrors the spec's intent. -/
def applyIssuesSpecOrder (text : String) (issues : List GrammarIssue) : String :=
  applyGrammarIssues text (issues.insertionSort (fun a b => b.offset ≤ a.offset))

/-- The `tech_corrections` table of `resume_generator.correct_skill_text`,
in dict insertion order. -/
def techCorrections : List (String × String) :=
  [("javascript", "JavaScript"), ("html", "HTML"), ("css", "CSS"),
   ("sql", "SQL"), ("aws", "AWS"), ("api", "API"), ("ui", "UI"),
   ("ux", "UX"), ("powerbi", "PowerBI"), ("github", "GitHub")]

/-- Embedding of `resume_generator.correct_skill_text`.  Note the source computes
`corrected_lower` once, before the replacement loop. -/
def correct_skill_text (skill : String) : String :=
  if skill = "" then skill
  else
    let corrected := pyStrip skill
    let corrected_lower := pyLower corrected
    let corrected := techCorrections.foldl
      (fun c tp =>
        if strContains corrected_lower tp.1 then
          pyReplace (pyReplace c tp.1 tp.2) (pyUpper tp.1) tp.2
        else c)
      corrected
    rstripChars corrected ['.', ',', ';', ':']

/-! ## `utils/resume_generator.py`: structural parser -/

/-- The `personal_info` dict; keys appear only once set. -/
structure PersonalInfo where
  name : Option String
  email : Option String
  phone : Option String
  address : Option String
deriving Repr, DecidableEq

/-- One experience entry. -/
structure Experience where
  title : String
  company : String
  duration : String
  responsibilities : List String
deriving Repr, DecidableEq

/-- One education entry (`parse_education_item` fills only `details`). -/
structure Education where
  institution : String
  degree : String
  year : String
  details : String
deriving Repr, DecidableEq

/-- The structured resume dict built by `parse_resume_text`. -/
structure StructuredResume where
  personal_info : PersonalInfo
  summary : String
  experience : List Experience
  skills : List String
  education : List Education
  achievements : List String
  other_sections : List String
deriving Repr, DecidableEq

/-- The all-empty structured resume (also how the bare `{}` returned for empty
input reads through the `StructuredResume` schema). -/
def emptyResume : StructuredResume := ⟨⟨none, none, none, none⟩, "", [], [], [], [], []⟩

/-- Character class `[A-Za-z0-9._%+-]` of the email regex. -/
def isEmailLocalChar (c : Char) : Bool :=
  c.isAlphanum || c = '.' || c = '_' || c = '%' || c = '+' || c = '-'

/-- Character class `[A-Za-z0-9.-]` of the email regex. -/
def isEmailDomainChar (c : Char) : Bool := c.isAlphanum || c = '.' || c = '-'

/-- Character class `[A-Z|a-z]` of the email regex (it literally contains `|`). -/
def isEmailTldChar (c : Char) : Bool := c.isAlpha || c = '|'

/-- One backtracking attempt of the email regex: dot at index `k` of the
maximal domain-character run `d`. -/
def emailTryDot (l d after : List Char) (k : ℕ) : Option (List Char) :=
  if k = 0 then none
  else if d.get? k = some '.' then
    let t := ((d.drop (k + 1)) ++ after).takeWhile isEmailTldChar
    if 2 ≤ t.length then some (l ++ '@' :: ((d.take k) ++ '.' :: t)) else none
  else none

/-- Greedy backtracking over dot positions, largest first. -/
def emailBack (l d after : List Char) : ℕ → Option (List Char)
  | 0 => none
  | k + 1 => (emailTryDot l d after (k + 1)).orElse fun _ => emailBack l d after k

/-- Match `[A-Za-z0-9._%+-]+@[A-Za-z0-9.-]+\.[A-Z|a-z]{2,}` at the start of
`cs` with greedy-backtracking semantics (the `\b` anchors of the source regex
are not modelled; no settled claim exercises personal-info lines). -/
def matchEmailAt (cs : List Char) : Option (List Char) :=
  let l := cs.takeWhile isEmailLocalChar
  if l.isEmpty then none
  else
    match cs.drop l.length with
    | '@' :: rest =>
      let d := rest.takeWhile isEmailDomainChar
      emailBack l d (rest.drop d.length) (d.length - 1)
    | _ => none

/-- Leftmost search of the email regex (Python `re.search`). -/
def searchEmail : List Char → Option String
  | [] => none
  | c :: cs =>
    match matchEmailAt (c :: cs) with
    | some m => some ⟨m⟩
    | none => searchEmail cs

/-- Character class `[\s.-]` of the phone regex. -/
def isPhoneSep (c : Char) : Bool := c.isWhitespace || c = '.' || c = '-'

/-- Greedy optional single character: consume-first alternatives. -/
def optChar (p : Char → Bool) (cs : List Char) : List (List Char × List Char) :=
  match cs with
  | c :: rest => if p c then [([c], rest), ([], cs)] else [([], cs)]
  | [] => [([], [])]

/-- Exactly `n` digits. -/
def exactDigits (n : ℕ) (cs : List Char) : Option (List Char × List Char) :=
  let d := cs.take n
  if d.length = n && d.all Char.isDigit then some (d, cs.drop n) else none

/-- Match `[\+]?[1-9]?[\s.-]?\(?[0-9]{3}\)?[\s.-]?[0-9]{3}[\s.-]?[0-9]{4}` at
the start of `cs` with backtracking over the optional pieces. -/
def matchPhoneAt (cs : List Char) : Option (List Char) :=
  let paths :=
    (optChar (· = '+') cs).flatMap fun p1 =>
    (optChar (fun c => decide ('1' ≤ c) && decide (c ≤ '9')) p1.2).flatMap fun p2 =>
    (optChar isPhoneSep p2.2).flatMap fun p3 =>
    (optChar (· = '(') p3.2).flatMap fun p4 =>
    match exactDigits 3 p4.2 with
    | none => []
    | some d1 =>
      (optChar (· = ')') d1.2).flatMap fun p5 =>
      (optChar isPhoneSep p5.2).flatMap fun p6 =>
      match exactDigits 3 p6.2 with
      | none => []
      | some d2 =>
        (optChar isPhoneSep d2.2).flatMap fun p7 =>
        match exactDigits 4 p7.2 with
        | none => []
        | some d3 =>
          [p1.1 ++ p2.1 ++ p3.1 ++ p4.1 ++ d1.1 ++ p5.1 ++ p6.1 ++ d2.1 ++ p7.1 ++ d3.1]
  paths.head?

/-- Leftmost search of the phone regex. -/
def searchPhone : List Char → Option String
  | [] => none
  | c :: cs =>
    match matchPhoneAt (c :: cs) with
    | some m => some ⟨m⟩
    | none => searchPhone cs

/-- Embedding of `resume_generator.parse_personal_info` (mutates the dict; modelled as a
function on `PersonalInfo`). -/
def parse_personal_info (line : String) (personal_info : PersonalInfo) : PersonalInfo :=
  let email_match := searchEmail line.toList
  let phone_match := searchPhone line.toList
  let pi := match email_match with
    | some e => { personal_info with email := some e }
    | none => personal_info
  let pi := match phone_match with
    | some p => { pi with phone := some p }
    | none => pi
  if email_match = none && phone_match = none then
    if pi.name = none && decide ((pySplitWs line).length ≤ 4) then
      { pi with name := some line }
    else
      { pi with address := some ((pi.address.getD "") ++ line ++ " ") }
  else pi

/-- Embedding of `re.search(r'(20\d{2}|19\d{2})', line)` as a boolean: a year-like four
character group occurs somewhere. -/
def yearAt (cs : List Char) : Bool :=
  match cs with
  | a :: b :: c :: d :: _ =>
    ((a = '2' && b = '0') || (a = '1' && b = '9')) && c.isDigit && d.isDigit
  | _ => false

/-- Scan for a year anywhere in the list. -/
def hasYear : List Char → Bool
  | [] => false
  | c :: cs => yearAt (c :: cs) || hasYear cs

/-- Apply `f` to the last element, if any (Python `experience_list[-1]` update). -/
def updateLast : List Experience → (Experience → Experience) → List Experience
  | [], _ => []
  | [e], f => [f e]
  | e :: e' :: rest, f => e :: updateLast (e' :: rest) f

/-- Embedding of `resume_generator.parse_experience_item`. -/
def parse_experience_item (line : String) (experience_list : List Experience) :
    List Experience :=
  if decide ((pySplitWs line).length ≤ 6) &&
      (strContains (pyLower line) "at" || strContains line "|" || strContains line "-") &&
      !pyStartsWith line "•" && !pyStartsWith line "-" then
    let job_parts := if strContains line " at " then pySplitOn line " at " else pySplitOn line " - "
    let item : Experience :=
      { title := pyStrip (job_parts.headD line)
        company := match job_parts with
          | _ :: c :: _ => pyStrip c
          | _ => ""
        duration := ""
        responsibilities := [] }
    experience_list ++ [item]
  else if !experience_list.isEmpty &&
      (pyStartsWith line "•" || pyStartsWith line "-" || pyStartsWith line "*") then
    updateLast experience_list fun e =>
      { e with responsibilities := e.responsibilities ++ [lstripChars line ['•', '-', '*', ' ']] }
  else if !experience_list.isEmpty then
    if hasYear line.toList then
      updateLast experience_list fun e => { e with duration := line }
    else
      updateLast experience_list fun e =>
        { e with responsibilities := e.responsibilities ++ [line] }
  else experience_list

/-- Embedding of `resume_generator.parse_skills`: split on the first present delimiter,
trim, drop empties, append the pieces not already present. -/
def parse_skills (line : String) (skills_list : List String) : List String :=
  let skills := match [",", "•", "|", "·", ";"].find? (fun sep => strContains line sep) with
    | some sep => ((pySplitOn line sep).map pyStrip).filter (· ≠ "")
    | none => [line]
  skills.foldl
    (fun acc skill => if skill ≠ "" ∧ skill ∉ acc then acc ++ [skill] else acc)
    skills_list

/-- Embedding of `resume_generator.parse_education_item`: only lines containing a degree
keyword become entries; every other line is dropped. -/
def parse_education_item (line : String) (education_list : List Education) :
    List Education :=
  if ["university", "college", "degree", "bachelor", "master", "phd"].any
      (fun kw => strContains (pyLower line) kw) then
    education_list ++ [⟨"", "", "", line⟩]
  else education_list

/-- Python `str.isupper`: at least one cased character, all cased characters
upper case (ASCII letters modelled as the cased characters). -/
def pyIsUpper (s : String) : Bool :=
  let cased := s.toList.filter Char.isAlpha
  !cased.isEmpty && cased.all Char.isUpper

/-- Embedding of `resume_generator.is_likely_header`, with Python's operator precedence:
`(len < 50 and isupper) or (spaces <= 3 and no digit)`. -/
def is_likely_header (line : String) : Bool :=
  (decide (line.length < 50) && pyIsUpper line) ||
  (decide (line.toList.count ' ' ≤ 3) && !(line.toList.any Char.isDigit))

/-- Parser states. -/
inductive ResumeSection where
  | personal | summary | experience | skills | education | achievements | other
deriving Repr, DecidableEq

/-- The `section_keywords` dict of `parse_resume_text`, in insertion order. -/
def sectionKeywordTable : List (ResumeSection × List String) :=
  [(.personal, ["contact", "personal", "name", "email", "phone"]),
   (.summary, ["summary", "profile", "objective", "about"]),
   (.experience, ["experience", "employment", "work", "career", "jobs"]),
   (.skills, ["skills", "competencies", "technologies", "tools", "expertise"]),
   (.education, ["education", "qualifications", "academic", "degree", "school"]),
   (.achievements, ["achievements", "awards", "honors", "accomplishments"])]

/-- Header detection loop of `parse_resume_text`: first section (in dict
order) whose keyword list hits the lower-cased line, with the line shorter
than 100 characters and header-like.  (`is_likely_header` does not depend on
the section, so the loop's continue-on-non-header behaviour collapses to this
single scan.) -/
def detectSection (line : String) : Option ResumeSection :=
  let line_lower := pyLower line
  (sectionKeywordTable.find? fun sk =>
    sk.2.any (fun kw => strContains line_lower kw) &&
    decide (line.length < 100) && is_likely_header line).map (·.1)

/-- One iteration of the main loop of `parse_resume_text`. -/
def processLine (st : ResumeSection × StructuredResume) (line : String) :
    ResumeSection × StructuredResume :=
  match detectSection line with
  | some s => (s, st.2)
  | none =>
    let d := st.2
    match st.1 with
    | .personal =>
      (st.1, { d with personal_info := parse_personal_info line d.personal_info })
    | .summary => (st.1, { d with summary := d.summary ++ line ++ " " })
    | .experience =>
      (st.1, { d with experience := parse_experience_item line d.experience })
    | .skills => (st.1, { d with skills := parse_skills line d.skills })
    | .education =>
      (st.1, { d with education := parse_education_item line d.education })
    | .achievements =>
      (st.1, { d with achievements := d.achievements ++ [line] })
    | .other =>
      (st.1, { d with other_sections := d.other_sections ++ [line] })

/-- Embedding of `[line.strip() for line in text.split('\n') if line.strip()]`. -/
def strippedLines (text : String) : List String :=
  ((pySplitOn text "\n").map pyStrip).filter (· ≠ "")

/-- Embedding of `resume_generator.parse_resume_text`.  For empty input the source returns
the bare `{}`, which reads as the all-empty structure. -/
def parse_resume_text (text : String) : StructuredResume :=
  if text = "" then emptyResume
  else
    let res := ((strippedLines text).foldl processLine (ResumeSection.other, emptyResume)).2
    { res with summary := pyStrip res.summary }

/-! ## `utils/resume_generator.py`: content optimizer -/

/-- Embedding of `resume_generator.optimize_summary_comprehensive`. -/
def optimize_summary_comprehensive (summary : String)
    (missing_keywords _suggestions : List String) (_job_description : String) : String :=
  let summary :=
    if summary = "" then
      "Experienced professional with strong background in delivering results and exceeding expectations."
    else summary
  let enhanced_summary := pyStrip summary
  let enhanced_summary := (missing_keywords.take 3).foldl
    (fun enh keyword =>
      if !(strContains (pyLower enh) (pyLower keyword)) then
        if strContains (pyLower enh) "experience" then
          pyReplace enh "experience" ("experience in " ++ pyLower keyword)
        else
          (rstripChars enh ['.']) ++ ". Skilled in " ++ pyLower keyword ++ "."
      else enh)
    enhanced_summary
  if !pyEndsWith enhanced_summary "." then enhanced_summary ++ "." else enhanced_summary

/-- The append step of both loops in `optimize_skills_comprehensive`: append
the candidate unless it is already a case-insensitive substring of an
existing skill. -/
def addIfNewSkill (opt : List String) (skill : String) : List String :=
  if !(opt.any fun ex => strContains (pyLower ex) (pyLower skill)) then opt ++ [skill]
  else opt

/-- One step of the `seen`/`unique_skills` dedup loop at the end of
`optimize_skills_comprehensive` (first component models the `seen` set). -/
def seenFold (acc : List String × List String) (skill : String) :
    List String × List String :=
  if pyLower skill ∈ acc.1 then acc
  else (acc.1 ++ [pyLower skill], acc.2 ++ [skill])

/-- The `seen`/`unique_skills` dedup loop: keep the first occurrence of each
lower-cased form. -/
def uniqueSkills (l : List String) : List String := (l.foldl seenFold ([], [])).2

/-- Embedding of `resume_generator.optimize_skills_comprehensive` (its `matched_skills`
parameter is unused in the source body too). -/
def optimize_skills_comprehensive (skills job_skills missing_keywords
    _matched_skills : List String) : List String :=
  let optimized_skills := (job_skills.take 5).foldl addIfNewSkill skills
  let skill_keywords := missing_keywords.filter fun k => decide ((pySplitWs k).length ≤ 2)
  let optimized_skills := (skill_keywords.take 3).foldl addIfNewSkill optimized_skills
  let optimized_skills := optimized_skills.map correct_skill_text
  uniqueSkills optimized_skills

/-- Embedding of `resume_generator.enhance_responsibility_with_keyword`. -/
def enhance_responsibility_with_keyword (responsibility keyword : String) : String :=
  let kl := pyLower keyword
  if kl = "python" then responsibility ++ " using Python programming"
  else if kl = "sql" then responsibility ++ " with SQL database queries"
  else if kl = "excel" then responsibility ++ " utilizing Excel analysis"
  else if kl = "leadership" then responsibility ++ " demonstrating strong leadership"
  else if kl = "analytics" then responsibility ++ " through data analytics"
  else if kl = "automation" then responsibility ++ " via process automation"
  else if kl = "collaboration" then responsibility ++ " through cross-team collaboration"
  else responsibility ++ " leveraging " ++ keyword ++ " expertise"

/-- Embedding of `resume_generator.add_quantifiable_impact`. -/
def add_quantifiable_impact (responsibility : String) : String :=
  let rl := pyLower responsibility
  if strContains rl "team" || strContains rl "manage" then
    responsibility ++ ", supporting team of 10+ members"
  else if strContains rl "process" || strContains rl "improve" then
    responsibility ++ ", resulting in 20% efficiency improvement"
  else if strContains rl "develop" || strContains rl "create" then
    responsibility ++ ", achieving 95% accuracy rate"
  else responsibility ++ ", delivering measurable results"

/-- Embedding of `resume_generator.create_keyword_responsibility`. -/
def create_keyword_responsibility (keyword : String) (_job_description : String) : String :=
  if pyLower keyword ∈ ["leadership", "management", "collaboration"] then
    "Demonstrated " ++ keyword ++ " skills to guide teams and achieve organizational goals"
  else if pyLower keyword ∈ ["analytics", "analysis", "data"] then
    "Conducted " ++ keyword ++ " to inform decision-making and drive strategic initiatives"
  else
    "Implemented " ++ keyword ++ " solutions to streamline operations and improve efficiency"

/-- The `action_verbs` list of `optimize_experience_comprehensive`. -/
def actionVerbs : List String :=
  ["Led", "Managed", "Developed", "Implemented", "Designed", "Created",
   "Improved", "Optimized", "Achieved", "Delivered"]

/-- One iteration of the responsibility loop in
`optimize_experience_comprehensive`: enhance responsibility number `j`,
threading the `keywords_used` set (as a list). -/
def enhanceOneResp (missing_keywords : List String) (used : List String) (j : ℕ)
    (resp : String) : String × List String :=
  let enhanced_resp := pyStrip resp
  let enhanced_resp :=
    if !(actionVerbs.any fun verb => pyStartsWith enhanced_resp verb) then
      let el := pyLower enhanced_resp
      let e :=
        if strContains el "manage" || strContains el "lead" then
          "Led " ++ pyLower enhanced_resp
        else if strContains el "develop" || strContains el "create" then
          "Developed " ++ pyLower enhanced_resp
        else if strContains el "improve" || strContains el "optimize" then
          "Improved " ++ pyLower enhanced_resp
        else "Achieved " ++ pyLower enhanced_resp
      capitalizeFirst e
    else enhanced_resp
  let available_keywords := missing_keywords.filter fun k =>
    !(strContains (pyLower enhanced_resp) (pyLower k)) && !used.contains k
  let p :=
    match available_keywords with
    | keyword :: _ =>
      if j < 3 then
        if (pySplitWs keyword).length = 1 then
          (enhance_responsibility_with_keyword enhanced_resp keyword, used ++ [keyword])
        else (enhanced_resp, used ++ [keyword])
      else (enhanced_resp, used)
    | [] => (enhanced_resp, used)
  let enhanced_resp := p.1
  let used := p.2
  let enhanced_resp :=
    if !(enhanced_resp.toList.any Char.isDigit) && j = 0 then
      add_quantifiable_impact enhanced_resp
    else enhanced_resp
  (enhanced_resp, used)

/-- The responsibility loop of `optimize_experience_comprehensive`. -/
def enhanceResps (missing_keywords : List String) :
    ℕ → List String → List String → List String × List String
  | _, used, [] => ([], used)
  | j, used, r :: rs =>
    let p := enhanceOneResp missing_keywords used j r
    let q := enhanceResps missing_keywords (j + 1) p.2 rs
    (p.1 :: q.1, q.2)

/-- Per-entry body of `optimize_experience_comprehensive`. -/
def optimizeExperienceItem (missing_keywords : List String) (job_description : String)
    (exp : Experience) : Experience :=
  let p := enhanceResps missing_keywords 0 [] exp.responsibilities
  let enhanced_responsibilities := p.1
  let remaining_keywords := (missing_keywords.take 3).filter fun k => !p.2.contains k
  let enhanced_responsibilities :=
    match remaining_keywords with
    | k :: _ =>
      if enhanced_responsibilities.length < 5 then
        let new_responsibility := create_keyword_responsibility k job_description
        if new_responsibility ≠ "" then enhanced_responsibilities ++ [new_responsibility]
        else enhanced_responsibilities
      else enhanced_responsibilities
    | [] => enhanced_responsibilities
  { exp with responsibilities := enhanced_responsibilities }

/-- Embedding of `resume_generator.optimize_experience_comprehensive`. -/
def optimize_experience_comprehensive (experience : List Experience)
    (missing_keywords _suggestions : List String) (job_description : String) :
    List Experience :=
  experience.map (optimizeExperienceItem missing_keywords job_description)

/-- The `suggestion_achievements` filler list of `enhance_achievements`. -/
def suggestionAchievements : List String :=
  ["Recognized for outstanding performance and commitment to excellence",
   "Consistently exceeded performance targets and quality standards",
   "Received positive feedback for innovative problem-solving approach"]

/-- One step of the keyword loop in `enhance_achievements`: append a
synthesized achievement unless the keyword already occurs in the lower-cased
join of the current achievements. -/
def achStep (enh : List String) (keyword : String) : List String :=
  if !(strContains (pyLower (String.intercalate " " enh)) keyword) then
    enh ++ ["Successfully applied " ++ keyword ++ " expertise to deliver exceptional results"]
  else enh

/-- Embedding of `resume_generator.enhance_achievements`. -/
def enhance_achievements (achievements missing_keywords suggestions : List String) :
    List String :=
  let enhanced_achievements := (missing_keywords.take 3).foldl achStep achievements
  if !suggestions.isEmpty && decide (enhanced_achievements.length < 5) then
    enhanced_achievements ++ suggestionAchievements.take 2
  else enhanced_achievements

/-- Per-entry body of the experience loop in `apply_grammar_corrections`
(the source mutates `exp` in place). -/
def grammarFixExperience (checker : String → GrammarReport) (exp : Experience) :
    Experience :=
  let exp := if !exp.responsibilities.isEmpty then
      { exp with responsibilities :=
          exp.responsibilities.map (correct_text_grammar checker) }
    else exp
  let exp := if exp.title ≠ "" then
      { exp with title := correct_text_grammar checker exp.title } else exp
  if exp.company ≠ "" then
    { exp with company := correct_text_grammar checker exp.company } else exp

/-- Embedding of `resume_generator.apply_grammar_corrections` (grammar collaborator
abstracted as `checker`).  The source's sequential in-place field updates
touch pairwise distinct fields, so they are one record update; its truthiness
guards are kept (for the experience list the guard is dropped: mapping the
empty list is itself). -/
def apply_grammar_corrections (checker : String → GrammarReport)
    (resume_data : StructuredResume) : StructuredResume :=
  { resume_data with
    summary := if resume_data.summary ≠ "" then
        correct_text_grammar checker resume_data.summary
      else resume_data.summary
    experience := resume_data.experience.map (grammarFixExperience checker)
    achievements := if !resume_data.achievements.isEmpty then
        resume_data.achievements.map (correct_text_grammar checker)
      else resume_data.achievements
    skills := if !resume_data.skills.isEmpty then
        resume_data.skills.map correct_skill_text
      else resume_data.skills }

/-- Embedding of `resume_generator.optimize_resume_content`, grammar collaborator
abstracted as `checker`. -/
def optimize_resume_content (checker : String → GrammarReport)
    (resume_data : StructuredResume) (job_description : String)
    (analysis : Analysis) : StructuredResume :=
  let missing_keywords := analysis.missing_keywords
  let job_skills := analysis.job_skills
  let suggestions := analysis.suggestions
  let matched_skills := (analysis.skills_match.map (·.matched_skills)).getD []
  let optimized := { resume_data with
    summary := optimize_summary_comprehensive resume_data.summary missing_keywords
      suggestions job_description
    skills := optimize_skills_comprehensive resume_data.skills job_skills
      missing_keywords matched_skills
    experience := optimize_experience_comprehensive resume_data.experience
      missing_keywords suggestions job_description
    achievements := enhance_achievements resume_data.achievements missing_keywords
      suggestions }
  apply_grammar_corrections checker optimized

/-! ## Concrete fixtures used by witnesses and counterexamples -/

/-- An analysis with every field empty/zero. -/
def blankAnalysis : Analysis := ⟨0, none, 0, [], [], [], [], [], []⟩

/-! ## Claims -/

/-- C6: keyword_overlap equals `|RK ∩ JK| / |JK| × 100` when JK is non-empty
and 0 when JK is empty, always lies in [0,100]; the scenario
JK = {python, sql, leadership}, RK = {python} gives 100/3 ≈ 33.33. -/
theorem keyword_overlap_spec :
    (∀ rk jk : Finset String,
        0 ≤ calculate_keyword_overlap rk jk ∧
        calculate_keyword_overlap rk jk ≤ 100 ∧
        (jk = ∅ → calculate_keyword_overlap rk jk = 0)) ∧
    calculate_keyword_overlap {"python"} {"python", "sql", "leadership"} = 100 / 3 ∧
    |calculate_keyword_overlap {"python"} {"python", "sql", "leadership"} - 33.33| <
      1 / 100 := by
  refine ⟨fun rk jk => ?_, ?_, ?_⟩
  · by_cases h : jk = ∅
    · refine ⟨?_, ?_, fun _ => ?_⟩ <;> simp [calculate_keyword_overlap, h]
    · rw [calculate_keyword_overlap, if_neg h]
      have hpos : (0 : ℚ) < (jk.card : ℚ) := by
        exact_mod_cast Finset.card_pos.mpr (Finset.nonempty_iff_ne_empty.mpr h)
      have hc : ((rk ∩ jk).card : ℚ) ≤ (jk.card : ℚ) := by
        exact_mod_cast Finset.card_le_card Finset.inter_subset_right
      have hdiv0 : (0 : ℚ) ≤ ((rk ∩ jk).card : ℚ) / (jk.card : ℚ) :=
        div_nonneg (by positivity) (le_of_lt hpos)
      have hdiv1 : ((rk ∩ jk).card : ℚ) / (jk.card : ℚ) ≤ 1 :=
        (div_le_one hpos).mpr hc
      refine ⟨by positivity, ?_, fun he => absurd he h⟩
      calc ((rk ∩ jk).card : ℚ) / (jk.card : ℚ) * 100 ≤ 1 * 100 :=
            mul_le_mul_of_nonneg_right hdiv1 (by norm_num)
        _ = 100 := by norm_num
  · have h1 : (({"python"} : Finset String) ∩ {"python", "sql", "leadership"}).card = 1 := by
      decide
    have h2 : ({"python", "sql", "leadership"} : Finset String).card = 3 := by decide
    have h3 : ¬(({"python", "sql", "leadership"} : Finset String) = ∅) := by decide
    rw [calculate_keyword_overlap, if_neg h3, h1, h2]
    norm_num
  · have h1 : (({"python"} : Finset String) ∩ {"python", "sql", "leadership"}).card = 1 := by
      decide
    have h2 : ({"python", "sql", "leadership"} : Finset String).card = 3 := by decide
    have h3 : ¬(({"python", "sql", "leadership"} : Finset String) = ∅) := by decide
    rw [calculate_keyword_overlap, if_neg h3, h1, h2, abs_sub_lt_iff]
    constructor <;> norm_num

/-- Witness for C6 at a concrete input: empty job keyword set yields overlap 0. -/
theorem keyword_overlap_spec_witness : calculate_keyword_overlap ∅ ∅ = 0 :=
  (keyword_overlap_spec.1 ∅ ∅).2.2 rfl

/-- C5: the missing-keywords list is contained in JK, disjoint from RK,
sorted longest-first then alphabetically, and at most 20 long. -/
theorem missing_keywords_sorted_subset :
    ∀ rk jk : Finset String,
      (find_missing_keywords rk jk).length ≤ 20 ∧
      (∀ x ∈ find_missing_keywords rk jk, x ∈ jk ∧ x ∉ rk) ∧
      List.Sorted kwOrder (find_missing_keywords rk jk) := by
  intro rk jk
  refine ⟨?_, ?_, ?_⟩
  · rw [find_missing_keywords]
    simp [List.length_take_le]
  · intro x hx
    rw [find_missing_keywords] at hx
    have hx' := List.mem_of_mem_take hx
    rw [Finset.mem_sort] at hx'
    exact ⟨(Finset.mem_sdiff.mp hx').1, (Finset.mem_sdiff.mp hx').2⟩
  · rw [find_missing_keywords]
    exact List.Pairwise.sublist (List.take_sublist _ _) (Finset.sort_sorted kwOrder _)

/-- Witness for C5 at a concrete input. -/
theorem missing_keywords_sorted_subset_witness :
    ("sql" ∈ ({"python", "sql"} : Finset String) ∧
      "sql" ∉ ({"python"} : Finset String)) ∧
    (find_missing_keywords {"python"} {"python", "sql"}).length ≤ 20 := by
  have hmem : "sql" ∈ find_missing_keywords {"python"} {"python", "sql"} := by
    have h1 : ({"python", "sql"} : Finset String) \ {"python"} = {"sql"} := by decide
    rw [find_missing_keywords, h1, Finset.sort_singleton]
    simp
  exact ⟨(missing_keywords_sorted_subset {"python"} {"python", "sql"}).2.1 "sql" hmem,
    (missing_keywords_sorted_subset {"python"} {"python", "sql"}).1⟩

/-- C4 counterexample: when the job yields no job skills,
`calculate_skills_match` returns a (truthy) report with percentage 0, so
`calculate_skills_score` lands in the bottom bucket 30 — not the claimed
default 50. -/
theorem skills_score_empty_job_skills_counterexample :
    calculate_skills_score { blankAnalysis with
      skills_match := some (calculate_skills_match {"python"} ∅)
      resume_skills := ["python"] } = 30 ∧ (30 : ℚ) ≠ 50 := by
  constructor
  · norm_num [calculate_skills_score, calculate_skills_match, blankAnalysis]
  · norm_num

/-- C4 (amended): the skills score is the stepwise bucket of
`skills_match.percentage`; the 50 default fires only when the analysis has no
(or a falsy) `skills_match` entry; with no job skills `calculate_skills_match`
reports percentage 0 and the skills score is 30. -/
theorem skills_score_bucket_spec :
    (∀ (analysis : Analysis) (sm : SkillsMatch), analysis.skills_match = some sm →
        calculate_skills_score analysis =
          (if sm.percentage ≥ 90 then (100 : ℚ)
           else if sm.percentage ≥ 75 then 90
           else if sm.percentage ≥ 60 then 80
           else if sm.percentage ≥ 45 then 70
           else if sm.percentage ≥ 30 then 60
           else if sm.percentage ≥ 15 then 45
           else 30)) ∧
    (∀ analysis : Analysis, analysis.skills_match = none →
        calculate_skills_score analysis = 50) ∧
    (∀ (analysis : Analysis) (rs : Finset String),
        analysis.skills_match = some (calculate_skills_match rs ∅) →
        calculate_skills_score analysis = 30) := by
  refine ⟨?_, ?_, ?_⟩
  · intro a sm h; simp only [calculate_skills_score, h]
  · intro a h; simp only [calculate_skills_score, h]
  · intro a rs h
    simp only [calculate_skills_score, h]
    norm_num [calculate_skills_match]

/-- Witness for C4 at concrete inputs: one value per branch of the amended
statement. -/
theorem skills_score_bucket_spec_witness :
    calculate_skills_score { blankAnalysis with skills_match := some ⟨80, [], []⟩ } = 90 ∧
    calculate_skills_score blankAnalysis = 50 ∧
    calculate_skills_score { blankAnalysis with
      skills_match := some (calculate_skills_match {"python"} ∅) } = 30 := by
  refine ⟨?_, ?_, ?_⟩
  · have h := skills_score_bucket_spec.1
      { blankAnalysis with skills_match := some ⟨80, [], []⟩ } ⟨80, [], []⟩ rfl
    rw [h]; norm_num
  · exact skills_score_bucket_spec.2.1 blankAnalysis rfl
  · exact skills_score_bucket_spec.2.2 _ {"python"} rfl

/-- C9: parsing empty text yields the all-empty structure, and the
completeness score of an analysis with no resume keywords and no resume
skills is 0. -/
theorem empty_parse_and_zero_completeness :
    parse_resume_text "" = emptyResume ∧
    ∀ analysis : Analysis, analysis.resume_keywords = [] →
      analysis.resume_skills = [] → calculate_completeness_score analysis = 0 := by
  constructor
  · rfl
  · intro a h1 h2
    norm_num [calculate_completeness_score, h1, h2, List.count]

/-- Witness for C9 at a concrete analysis. -/
theorem empty_parse_and_zero_completeness_witness :
    parse_resume_text "" = emptyResume ∧
    calculate_completeness_score blankAnalysis = 0 :=
  ⟨empty_parse_and_zero_completeness.1,
   empty_parse_and_zero_completeness.2 blankAnalysis rfl rfl⟩

/-- C8 counterexample: the two fallback paths carry two different scores
(95 when the collaborator is unavailable, 90 when it raises), so there is no
single documented fallback value covering both cases. -/
theorem grammar_fallback_scores_differ :
    (check_grammar "Hello world" ToolOutcome.unavailable).score ≠
    (check_grammar "Hello world" ToolOutcome.errored).score := by
  have hcond : (decide ("Hello world" = "") || decide (pyStrip "Hello world" = "")) = false := by
    decide
  simp only [check_grammar, hcond, Bool.false_eq_true, if_false]
  norm_num

/-- C8 (amended): for non-blank text, unavailability yields the report
`⟨[], 0, [unavailable-suggestion], 95⟩`, a raised error yields
`⟨[], 0, [error-suggestion], 90⟩`, and scoring still completes with
`breakdown.grammar` equal to the respective fallback value. -/
theorem grammar_fallback_contract :
    ∀ (text : String) (analysis : Analysis), pyStrip text ≠ "" →
      check_grammar text ToolOutcome.unavailable =
        ⟨[], 0, ["Grammar checking service is currently unavailable"], 95⟩ ∧
      check_grammar text ToolOutcome.errored =
        ⟨[], 0, ["Grammar checking encountered an error"], 90⟩ ∧
      (calculate_resume_score analysis
        (check_grammar text ToolOutcome.unavailable)).breakdown.grammar = 95 ∧
      (calculate_resume_score analysis
        (check_grammar text ToolOutcome.errored)).breakdown.grammar = 90 := by
  intro text a h
  have htext : ¬(text = "") := by
    intro he; exact h (by rw [he]; rfl)
  have hcond : (decide (text = "") || decide (pyStrip text = "")) = false := by
    simp [htext, h]
  have hu : check_grammar text ToolOutcome.unavailable =
      ⟨[], 0, ["Grammar checking service is currently unavailable"], 95⟩ := by
    simp only [check_grammar, hcond, Bool.false_eq_true, if_false]
  have he : check_grammar text ToolOutcome.errored =
      ⟨[], 0, ["Grammar checking encountered an error"], 90⟩ := by
    simp only [check_grammar, hcond, Bool.false_eq_true, if_false]
  have hg : ∀ g : GrammarReport,
      (calculate_resume_score a g).breakdown.grammar = round1 g.score := fun _ => rfl
  refine ⟨hu, he, ?_, ?_⟩
  · rw [hg, hu]; norm_num [round1, rTies]
  · rw [hg, he]; norm_num [round1, rTies]

/-- Witness for C8 at a concrete input. -/
theorem grammar_fallback_contract_witness :
    check_grammar "Hello world" ToolOutcome.unavailable =
      ⟨[], 0, ["Grammar checking service is currently unavailable"], 95⟩ ∧
    (calculate_resume_score blankAnalysis
      (check_grammar "Hello world" ToolOutcome.errored)).breakdown.grammar = 90 := by
  have h := grammar_fallback_contract "Hello world" blankAnalysis (by decide)
  exact ⟨h.1, h.2.2.2⟩

/-- Issue fixture: ascending offsets, as a grammar report lists them. -/
def issueA : GrammarIssue := ⟨"", "", 0, 1, ["XYZ"], "", ""⟩

/-- Second issue fixture, one position to the right of `issueA`. -/
def issueB : GrammarIssue := ⟨"", "", 1, 1, ["Q"], "", ""⟩

/-- A grammar collaborator reporting `issueA` then `issueB`. -/
def ascendingChecker : String → GrammarReport := fun _ => ⟨[issueA, issueB], 2, [], 80⟩

/-- C3 (code bug): `correct_text_grammar` applies the issues in report order,
not in descending-offset order.  On `"abc"` with the two ascending issues the
code yields `"XQZbc"` (the second edit lands inside the first replacement and
the original `'b'` is never corrected), while the spec's descending-offset
application yields `"XYZQc"`. -/
theorem grammar_pass_order_bug :
    correct_text_grammar ascendingChecker "abc" = "XQZbc" ∧
    applyIssuesSpecOrder "abc" [issueA, issueB] = "XYZQc" ∧
    correct_text_grammar ascendingChecker "abc" ≠
      applyIssuesSpecOrder "abc" [issueA, issueB] := by
  refine ⟨by decide, by decide, by decide⟩

/-- Lower clamp bound. -/
theorem pyClamp_nonneg (x : ℚ) : 0 ≤ pyClamp x := le_max_left 0 _

/-- Upper clamp bound. -/
theorem pyClamp_le_100 (x : ℚ) : pyClamp x ≤ 100 :=
  max_le (by norm_num) (min_le_left _ _)

/-- Integer rounding preserves nonnegativity. -/
theorem rTies_nonneg {x : ℚ} (h : 0 ≤ x) : 0 ≤ rTies x := by
  have hn : 0 ≤ ⌊x⌋ := Int.floor_nonneg.mpr h
  unfold rTies
  dsimp only
  split_ifs <;> omega

/-- Integer rounding of a value at most 1000 stays at most 1000. -/
theorem rTies_le_1000 {x : ℚ} (h : x ≤ 1000) : rTies x ≤ 1000 := by
  have hn : ⌊x⌋ ≤ 1000 := by
    have := Int.floor_le_floor h
    simpa using this
  have hfl : (⌊x⌋ : ℚ) ≤ x := Int.floor_le x
  unfold rTies
  dsimp only
  split_ifs with h1 h2 h3
  · exact hn
  · have hq : (⌊x⌋ : ℚ) < 1999 / 2 := by
      have : (⌊x⌋ : ℚ) + 1 / 2 < x := by linarith [h2]
      linarith
    have : (⌊x⌋ : ℤ) < 1000 := by
      have h2n : ((2 * ⌊x⌋ : ℤ) : ℚ) < 1999 := by push_cast; linarith
      have : (2 * ⌊x⌋ : ℤ) < 1999 := by exact_mod_cast h2n
      omega
    omega
  · exact hn
  · have heq : x - ⌊x⌋ = 1 / 2 := le_antisymm (not_lt.mp h2) (not_lt.mp h1)
    have hq : (⌊x⌋ : ℚ) ≤ 1999 / 2 := by linarith
    have : (⌊x⌋ : ℤ) < 1000 := by
      have h2n : ((2 * ⌊x⌋ : ℤ) : ℚ) ≤ 1999 := by push_cast; linarith
      have : (2 * ⌊x⌋ : ℤ) ≤ 1999 := by exact_mod_cast h2n
      omega
    omega

/-- One-decimal rounding preserves nonnegativity. -/
theorem round1_nonneg {x : ℚ} (h : 0 ≤ x) : 0 ≤ round1 x := by
  unfold round1
  have : (0 : ℚ) ≤ (rTies (10 * x) : ℚ) := by
    exact_mod_cast rTies_nonneg (by linarith)
  positivity

/-- One-decimal rounding of a value at most 100 stays at most 100. -/
theorem round1_le_100 {x : ℚ} (h : x ≤ 100) : round1 x ≤ 100 := by
  unfold round1
  have h1 : rTies (10 * x) ≤ 1000 := rTies_le_1000 (by linarith)
  have h2 : (rTies (10 * x) : ℚ) ≤ 1000 := by exact_mod_cast h1
  linarith

/-- Analysis fixture with a semantic similarity whose weighted contribution
has more than one decimal digit. -/
def analysisA : Analysis := { blankAnalysis with semantic_similarity := 1 / 3 }

/-- Grammar report fixture carrying the pass-through default score. -/
def grammarDefault : GrammarReport := ⟨[], 0, [], 95⟩

/-- C1 counterexample: the returned `overall_score` is the clamped weighted
sum *rounded to one decimal* (`round(·, 1)`), which differs from the plain
clamped weighted sum: here that sum is 2029/60 ≈ 33.8167, reported as 33.8. -/
theorem overall_score_rounding_counterexample :
    (calculate_resume_score analysisA grammarDefault).overall_score ≠
      pyClamp (calculate_keyword_score analysisA * 0.35 +
        calculate_skills_score analysisA * 0.25 +
        analysisA.semantic_similarity * 0.20 +
        grammarDefault.score * 0.15 +
        calculate_completeness_score analysisA * 0.05) := by
  have hsum : calculate_keyword_score analysisA * 0.35 +
      calculate_skills_score analysisA * 0.25 +
      analysisA.semantic_similarity * 0.20 + grammarDefault.score * 0.15 +
      calculate_completeness_score analysisA * 0.05 = 2029 / 60 := by
    norm_num [calculate_keyword_score, calculate_skills_score,
      calculate_completeness_score, analysisA, blankAnalysis, grammarDefault, List.count]
  have hclamp : pyClamp (2029 / 60) = 2029 / 60 := by
    norm_num [pyClamp, max_def, min_def]
  have hover : (calculate_resume_score analysisA grammarDefault).overall_score =
      round1 (pyClamp (2029 / 60)) := by
    simp only [calculate_resume_score, scoreWeights]
    rw [show (calculate_keyword_score analysisA * (0.35 : ℚ) +
      calculate_skills_score analysisA * 0.25 +
      analysisA.semantic_similarity * 0.20 + grammarDefault.score * 0.15 +
      calculate_completeness_score analysisA * 0.05 : ℚ) = 2029 / 60 from hsum]
  rw [hover, hsum, hclamp]
  norm_num [round1, rTies]

/-- C1 (amended): the report carries the fixed weights (0.35, 0.25, 0.20,
0.15, 0.05) summing to exactly 1, and for dimension scores in [0,100] the
returned `overall_score` equals the weighted sum clamped to [0,100] *and
rounded to one decimal*, hence lies in [0,100]. -/
theorem resume_score_weights_and_bounds :
    ∀ (analysis : Analysis) (grammar_results : GrammarReport),
      0 ≤ analysis.semantic_similarity → analysis.semantic_similarity ≤ 100 →
      0 ≤ grammar_results.score → grammar_results.score ≤ 100 →
      (calculate_resume_score analysis grammar_results).weights =
        ⟨0.35, 0.25, 0.20, 0.15, 0.05⟩ ∧
      (calculate_resume_score analysis grammar_results).weights.keyword_match +
        (calculate_resume_score analysis grammar_results).weights.skills_match +
        (calculate_resume_score analysis grammar_results).weights.semantic_similarity +
        (calculate_resume_score analysis grammar_results).weights.grammar +
        (calculate_resume_score analysis grammar_results).weights.completeness = 1 ∧
      (calculate_resume_score analysis grammar_results).overall_score =
        round1 (pyClamp (calculate_keyword_score analysis * 0.35 +
          calculate_skills_score analysis * 0.25 +
          analysis.semantic_similarity * 0.20 +
          grammar_results.score * 0.15 +
          calculate_completeness_score analysis * 0.05)) ∧
      0 ≤ (calculate_resume_score analysis grammar_results).overall_score ∧
      (calculate_resume_score analysis grammar_results).overall_score ≤ 100 := by
  intro a g _ _ _ _
  have hw : (calculate_resume_score a g).weights = ⟨0.35, 0.25, 0.20, 0.15, 0.05⟩ := rfl
  have hov : (calculate_resume_score a g).overall_score =
      round1 (pyClamp (calculate_keyword_score a * 0.35 +
        calculate_skills_score a * 0.25 + a.semantic_similarity * 0.20 +
        g.score * 0.15 + calculate_completeness_score a * 0.05)) := rfl
  refine ⟨hw, by rw [hw]; norm_num, hov, ?_, ?_⟩
  · rw [hov]; exact round1_nonneg (pyClamp_nonneg _)
  · rw [hov]; exact round1_le_100 (pyClamp_le_100 _)

/-- Witness for C1 at a concrete input. -/
theorem resume_score_weights_and_bounds_witness :
    (calculate_resume_score analysisA grammarDefault).weights =
      ⟨0.35, 0.25, 0.20, 0.15, 0.05⟩ ∧
    0 ≤ (calculate_resume_score analysisA grammarDefault).overall_score ∧
    (calculate_resume_score analysisA grammarDefault).overall_score ≤ 100 := by
  have h := resume_score_weights_and_bounds analysisA grammarDefault
    (by norm_num [analysisA, blankAnalysis]) (by norm_num [analysisA, blankAnalysis])
    (by norm_num [grammarDefault]) (by norm_num [grammarDefault])
  exact ⟨h.1, h.2.2.2.1, h.2.2.2.2⟩

/-- C10: the optimizer (grammar pass included) never touches `personal_info`,
`education`, or `other_sections`. -/
theorem optimizer_frame :
    ∀ (checker : String → GrammarReport) (resume_data : StructuredResume)
      (job_description : String) (analysis : Analysis),
      (optimize_resume_content checker resume_data job_description
        analysis).personal_info = resume_data.personal_info ∧
      (optimize_resume_content checker resume_data job_description
        analysis).education = resume_data.education ∧
      (optimize_resume_content checker resume_data job_description
        analysis).other_sections = resume_data.other_sections := by
  intro chk r job a
  exact ⟨rfl, rfl, rfl⟩

/-- A non-header line processed in the OTHER state is appended verbatim to
`other_sections`. -/
theorem processLine_other_noheader (d : StructuredResume) (l : String)
    (h : detectSection l = none) :
    processLine (ResumeSection.other, d) l =
      (ResumeSection.other, { d with other_sections := d.other_sections ++ [l] }) := by
  simp [processLine, h]

/-- Folding the parser over header-free lines from the OTHER state appends
them all to `other_sections` in order. -/
theorem foldl_processLine_other (ls : List String) (d : StructuredResume)
    (h : ∀ l ∈ ls, detectSection l = none) :
    ls.foldl processLine (ResumeSection.other, d) =
      (ResumeSection.other, { d with other_sections := d.other_sections ++ ls }) := by
  induction ls generalizing d with
  | nil => simp
  | cons x xs ih =>
    rw [List.foldl_cons, processLine_other_noheader d x (h x (List.mem_cons_self x xs)),
      ih _ (fun l hl => h l (List.mem_cons_of_mem _ hl))]
    simp

/-- C2 (amended): every non-blank line is consumed by exactly one loop
iteration — as a section header (which only switches state) or by the current
section's handler — but handlers may drop content; when no line is detected as
a section header, every non-blank line is preserved exactly once, in order, in
`other_sections`, and every other field stays empty. -/
theorem parser_headerless_preservation :
    ∀ text : String, (∀ l ∈ strippedLines text, detectSection l = none) →
      parse_resume_text text =
        { emptyResume with other_sections := strippedLines text } := by
  intro t h
  by_cases ht : t = ""
  · subst ht; rfl
  · rw [parse_resume_text, if_neg ht, foldl_processLine_other _ _ h]
    rfl

/-- C2 counterexample: in the EDUCATION state a line without degree keywords
is dropped entirely — parsing `"education\n2015 to 2019"` yields the
all-empty structure although `"2015 to 2019"` is a non-blank input line, so
its content is assigned to no field and is lost. -/
theorem parser_education_line_lost :
    parse_resume_text "education\n2015 to 2019" = emptyResume ∧
    "2015 to 2019" ∈ strippedLines "education\n2015 to 2019" := by
  refine ⟨by decide, by decide⟩

/-- Witness for C2 at a concrete header-free input. -/
theorem parser_headerless_preservation_witness :
    parse_resume_text "hello world line\nfoo bar" =
      { emptyResume with other_sections := ["hello world line", "foo bar"] } := by
  have h := parser_headerless_preservation "hello world line\nfoo bar" (by decide)
  rw [h]
  rfl

/-- A fold whose step only ever appends keeps the accumulator as a prefix. -/
theorem foldl_append_keeps_acc {α β : Type} (f : List α → β → List α)
    (hf : ∀ acc k, ∃ e, f acc k = acc ++ e) :
    ∀ (ks : List β) (acc : List α), ∃ rest, ks.foldl f acc = acc ++ rest := by
  intro ks
  induction ks with
  | nil => exact fun acc => ⟨[], by simp⟩
  | cons k ks ih =>
    intro acc
    obtain ⟨e, he⟩ := hf acc k
    obtain ⟨rest, hr⟩ := ih (f acc k)
    exact ⟨e ++ rest, by rw [List.foldl_cons, hr, he, List.append_assoc]⟩

/-- Lemma: `addIfNewSkill` only appends. -/
theorem addIfNewSkill_append (opt : List String) (k : String) :
    ∃ e, addIfNewSkill opt k = opt ++ e := by
  unfold addIfNewSkill; split_ifs
  · exact ⟨[k], rfl⟩
  · exact ⟨[], by simp⟩

/-- Lemma: `achStep` only appends. -/
theorem achStep_append (enh : List String) (k : String) :
    ∃ e, achStep enh k = enh ++ e := by
  unfold achStep; split_ifs
  · exact ⟨_, rfl⟩
  · exact ⟨[], by simp⟩

/-- Running the dedup fold over entries whose lower-cased forms are fresh and
pairwise distinct keeps every one of them. -/
theorem seenFold_run (xs : List String) :
    ∀ seen out : List String, (∀ x ∈ xs, pyLower x ∉ seen) →
      List.Pairwise (· ≠ ·) (xs.map pyLower) →
      xs.foldl seenFold (seen, out) = (seen ++ xs.map pyLower, out ++ xs) := by
  induction xs with
  | nil => intro seen out _ _; simp
  | cons x xs ih =>
    intro seen out hns hp
    rw [List.map_cons, List.pairwise_cons] at hp
    have hx : pyLower x ∉ seen := hns x (List.mem_cons_self _ _)
    rw [List.foldl_cons, show seenFold (seen, out) x =
      (seen ++ [pyLower x], out ++ [x]) by simp [seenFold, hx]]
    rw [ih (seen ++ [pyLower x]) (out ++ [x]) ?_ hp.2]
    · simp
    · intro y hy hmem
      rcases List.mem_append.mp hmem with h | h
      · exact hns y (List.mem_cons_of_mem _ hy) h
      · exact hp.1 (pyLower y) (List.mem_map_of_mem pyLower hy)
          (List.mem_singleton.mp h).symm

/-- The dedup fold never drops entries already in the output component. -/
theorem seenFold_mono (ys : List String) :
    ∀ (seen out : List String) (x : String), x ∈ out →
      x ∈ (ys.foldl seenFold (seen, out)).2 := by
  induction ys with
  | nil => intro seen out x hx; exact hx
  | cons y ys ih =>
    intro seen out x hx
    rw [List.foldl_cons]
    by_cases h : pyLower y ∈ seen
    · rw [show seenFold (seen, out) y = (seen, out) by simp [seenFold, h]]
      exact ih _ _ _ hx
    · rw [show seenFold (seen, out) y = (seen ++ [pyLower y], out ++ [y]) by
        simp [seenFold, h]]
      exact ih _ _ _ (List.mem_append_left _ hx)

/-- Every element of a prefix with pairwise-distinct lower-cased forms
survives `uniqueSkills`. -/
theorem uniqueSkills_mem_front (xs ys : List String)
    (hp : List.Pairwise (· ≠ ·) (xs.map pyLower)) :
    ∀ x ∈ xs, x ∈ uniqueSkills (xs ++ ys) := by
  intro x hx
  unfold uniqueSkills
  rw [List.foldl_append, seenFold_run xs [] [] (by simp) hp]
  exact seenFold_mono ys _ _ x (by simpa using hx)

/-- Every input skill whose corrected forms are pairwise case-insensitively
distinct survives `optimize_skills_comprehensive` as its corrected form. -/
theorem optimize_skills_mem (skills js mk ms : List String)
    (hp : List.Pairwise (· ≠ ·) ((skills.map correct_skill_text).map pyLower)) :
    ∀ s ∈ skills,
      correct_skill_text s ∈ optimize_skills_comprehensive skills js mk ms := by
  intro s hs
  obtain ⟨r1, h1⟩ :=
    foldl_append_keeps_acc addIfNewSkill addIfNewSkill_append (js.take 5) skills
  obtain ⟨r2, h2⟩ := foldl_append_keeps_acc addIfNewSkill addIfNewSkill_append
    ((mk.filter fun k => decide ((pySplitWs k).length ≤ 2)).take 3)
    ((js.take 5).foldl addIfNewSkill skills)
  unfold optimize_skills_comprehensive
  dsimp only
  rw [h2, h1, List.append_assoc, List.map_append]
  exact uniqueSkills_mem_front _ _ hp (correct_skill_text s)
    (List.mem_map_of_mem _ hs)

/-- The responsibility loop rewrites in place: the list keeps its length. -/
theorem enhanceResps_length (mk : List String) :
    ∀ (j : ℕ) (used rs : List String),
      (enhanceResps mk j used rs).1.length = rs.length := by
  intro j used rs
  induction rs generalizing j used with
  | nil => rfl
  | cons r rs ih => simp [enhanceResps, ih]

/-- Per-entry optimization never shrinks the responsibilities list. -/
theorem optimizeExperienceItem_resps_le (mk : List String) (job : String)
    (e : Experience) :
    e.responsibilities.length ≤
      (optimizeExperienceItem mk job e).responsibilities.length := by
  unfold optimizeExperienceItem
  have hlen := enhanceResps_length mk 0 [] e.responsibilities
  dsimp only
  split
  · split_ifs <;> simp [List.length_append, hlen]
  · simp [hlen]

/-- The grammar pass rewrites responsibilities in place. -/
theorem grammarFixExperience_resps_len (chk : String → GrammarReport)
    (e : Experience) :
    (grammarFixExperience chk e).responsibilities.length =
      e.responsibilities.length := by
  unfold grammarFixExperience
  dsimp only
  split_ifs <;> simp

/-- C7 (amended): the optimizer keeps the experience list's length, rewrites
each entry's responsibilities in place (only appending), only appends to
achievements, and keeps every input skill (as its corrected form) provided
the corrected input skills are pairwise case-insensitively distinct — without
that proviso the final case-insensitive dedup deletes later duplicates. -/
theorem optimizer_preserves_structure :
    ∀ (checker : String → GrammarReport) (resume_data : StructuredResume)
      (job_description : String) (analysis : Analysis),
      (optimize_resume_content checker resume_data job_description
        analysis).experience.length = resume_data.experience.length ∧
      (∀ (i : ℕ) (h1 : i < resume_data.experience.length)
        (h2 : i < (optimize_resume_content checker resume_data job_description
          analysis).experience.length),
        (resume_data.experience.get ⟨i, h1⟩).responsibilities.length ≤
          ((optimize_resume_content checker resume_data job_description
            analysis).experience.get ⟨i, h2⟩).responsibilities.length) ∧
      resume_data.achievements.length ≤
        (optimize_resume_content checker resume_data job_description
          analysis).achievements.length ∧
      (List.Pairwise (· ≠ ·)
          ((resume_data.skills.map correct_skill_text).map pyLower) →
        ∀ s ∈ resume_data.skills,
          correct_skill_text (correct_skill_text s) ∈
            (optimize_resume_content checker resume_data job_description
              analysis).skills) := by
  intro chk r job a
  have hexp : (optimize_resume_content chk r job a).experience =
      r.experience.map fun e =>
        grammarFixExperience chk (optimizeExperienceItem a.missing_keywords job e) := by
    show (r.experience.map (optimizeExperienceItem a.missing_keywords job)).map
      (grammarFixExperience chk) = _
    rw [List.map_map]
    rfl
  refine ⟨?_, ?_, ?_, ?_⟩
  · rw [hexp, List.length_map]
  · intro i h1 h2
    have h2' : i < (r.experience.map fun e =>
        grammarFixExperience chk (optimizeExperienceItem a.missing_keywords job e)).length := by
      rw [← hexp]; exact h2
    have hget : (optimize_resume_content chk r job a).experience.get ⟨i, h2⟩ =
        grammarFixExperience chk
          (optimizeExperienceItem a.missing_keywords job (r.experience.get ⟨i, h1⟩)) := by
      have := List.get_of_eq hexp ⟨i, h2⟩
      rw [this]
      simp [List.get_eq_getElem, List.getElem_map]
    rw [hget, grammarFixExperience_resps_len]
    exact optimizeExperienceItem_resps_le _ _ _
  · have hach : (optimize_resume_content chk r job a).achievements.length =
        (enhance_achievements r.achievements a.missing_keywords a.suggestions).length := by
      show (if !(enhance_achievements r.achievements a.missing_keywords
            a.suggestions).isEmpty then
          (enhance_achievements r.achievements a.missing_keywords
            a.suggestions).map (correct_text_grammar chk)
        else enhance_achievements r.achievements a.missing_keywords
          a.suggestions).length = _
      split_ifs <;> simp
    rw [hach]
    unfold enhance_achievements
    dsimp only
    obtain ⟨rest, hr⟩ := foldl_append_keeps_acc achStep achStep_append
      (a.missing_keywords.take 3) r.achievements
    rw [hr]
    split_ifs <;> simp [List.length_append]
  · intro hp s hs
    have hmem : correct_skill_text s ∈ optimize_skills_comprehensive r.skills
        a.job_skills a.missing_keywords
        ((a.skills_match.map SkillsMatch.matched_skills).getD []) :=
      optimize_skills_mem _ _ _ _ hp s hs
    show correct_skill_text (correct_skill_text s) ∈
      (if !(optimize_skills_comprehensive r.skills a.job_skills a.missing_keywords
          ((a.skills_match.map SkillsMatch.matched_skills).getD [])).isEmpty then
        (optimize_skills_comprehensive r.skills a.job_skills a.missing_keywords
          ((a.skills_match.map SkillsMatch.matched_skills).getD [])).map
          correct_skill_text
      else optimize_skills_comprehensive r.skills a.job_skills a.missing_keywords
        ((a.skills_match.map SkillsMatch.matched_skills).getD []))
    split_ifs with hemp
    · exact List.mem_map_of_mem _ hmem
    · have hS : optimize_skills_comprehensive r.skills a.job_skills a.missing_keywords
          ((a.skills_match.map SkillsMatch.matched_skills).getD []) = [] :=
        List.isEmpty_iff.mp (by simpa using hemp)
      exact absurd hmem (by simp [hS])

/-- Collaborator fixture reporting no issues. -/
def noIssueChecker : String → GrammarReport := fun _ => ⟨[], 0, [], 100⟩

/-- Resume fixture with two case-insensitively equal skill entries. -/
def dupSkillsResume : StructuredResume := { emptyResume with skills := ["SQL", "sql"] }

/-- C7 counterexample: the optimizer's case-insensitive skill dedup deletes
the second of the two input entries "SQL" and "sql" — the optimized skills
list is shorter than the input list, so an existing content element was
removed. -/
theorem optimizer_deletes_duplicate_skill :
    (optimize_resume_content noIssueChecker dupSkillsResume "" blankAnalysis).skills
      = ["SQL"] ∧
    dupSkillsResume.skills.length = 2 ∧
    (optimize_resume_content noIssueChecker dupSkillsResume "" blankAnalysis).skills.length
      < dupSkillsResume.skills.length := by
  refine ⟨by decide, by decide, by decide⟩

/-- Resume fixture with one entry per content list. -/
def sampleResume : StructuredResume :=
  { emptyResume with
    skills := ["python"]
    achievements := ["Did things"]
    experience := [⟨"Dev", "Acme", "", ["built stuff"]⟩] }

/-- Witness for C7 at a concrete input. -/
theorem optimizer_preserves_structure_witness :
    (optimize_resume_content noIssueChecker sampleResume "" blankAnalysis).experience.length
      = sampleResume.experience.length ∧
    sampleResume.achievements.length ≤
      (optimize_resume_content noIssueChecker sampleResume "" blankAnalysis).achievements.length ∧
    correct_skill_text (correct_skill_text "python") ∈
      (optimize_resume_content noIssueChecker sampleResume "" blankAnalysis).skills := by
  have h := optimizer_preserves_structure noIssueChecker sampleResume "" blankAnalysis
  exact ⟨h.1, h.2.2.1, h.2.2.2 (by decide) "python" (by decide)⟩

end CareerSpark
